import Mathlib

/-!
# A shallow embedding of the syncthing file-version index core

This file embeds, in Lean, the version-list / size-tracker transaction layer
(`src/lib/db/leveldb_transactions.go`), the block map and block finder
(`src/lib/db/blockmap.go`) and the monotonic clock (`src/unnamed/part_000`,
package `clock`) of the repository, and proves or refutes the frozen claims
about them.

Conventions of the embedding:

* Device IDs and folder IDs are `Nat` (the code only ever compares them for
  equality with `bytes.Equal`); file names are byte strings `List Nat`.
* The ordered key-value store of the transaction layer is modelled as a
  function from a structured `Key` type to a `GetRes`; the distinct `Key`
  constructors model the disjoint key-type bytes of the key codec.  The block
  map, whose behaviour depends on raw key bytes, is modelled at the byte level
  with an association-list store.
* Go panics are modelled as `Option.none`; each database mutation is one
  committed transaction, so a sequence of calls threads the store through.
* Machine integers are `Int`/`Nat`; none of the verified paths depend on
  64-bit wrap-around.
-/

namespace Syncthing

/-- Modelled from the spec: a version vector is an ordered list of
`(device, counter)` pairs (spec section 3); `lib/protocol`'s `Vector` is an
external collaborator absent from the provided sources. -/
abbrev VVec := List (Nat × Nat)

/-- Counter of a device in a version vector; devices that do not appear count
as zero.  Modelled from the spec's description of version vectors. -/
def vctr (v : VVec) (d : Nat) : Nat :=
  (v.filter (fun p => p.1 = d)).foldr (fun p m => max p.2 m) 0

/-- `vleq a b` holds when `a` is pointwise below `b`, i.e. `a` is dominated.
Modelled from the spec: "two vectors are concurrent if neither is ≤ the
other". -/
def vleq (a b : VVec) : Bool :=
  a.all (fun p => p.2 ≤ vctr b p.1)

/-- The five comparison outcomes of the external version-vector contract
(spec section 6). -/
inductive VOrd where
  | eq | gt | lt | cgt | clt
deriving DecidableEq

/-- Modelled from the spec: `Compare(a,b)` of the external version-vector
collaborator.  The code under verification treats `ConcurrentGreater` and
`ConcurrentLesser` identically, and the spec does not say which of the two a
given concurrent pair yields, so the model always answers `cgt` for
concurrent vectors. -/
def vcompare (a b : VVec) : VOrd :=
  if vleq a b then
    if vleq b a then .eq else .lt
  else
    if vleq b a then .gt else .cgt

/-- Modelled from the spec: `Vector.Equal`, i.e. `Compare` answering
`Equal`. -/
def vecEq (a b : VVec) : Bool :=
  vleq a b && vleq b a

/-- A content block of a file (spec section 3); only the hash matters to the
verified operations. -/
structure Block where
  hash : List Nat
  size : Int
  offset : Int
deriving DecidableEq

/-- The fields of `protocol.FileInfo` that the verified code reads.  The
derived predicates `IsDeleted`, `IsInvalid`, `IsDirectory` are carried as
fields (in the source they decode the `flags` word, which is external to the
provided sources). -/
structure FileInfo where
  name : List Nat
  version : VVec
  localVersion : Int
  modified : Int
  deleted : Bool
  invalid : Bool
  directory : Bool
  fsize : Int
  blocks : List Block
deriving DecidableEq

/-- A lexicographic strict comparison of version vectors, used only as the
final deterministic tie-break of `winsConflict`. -/
def vvLexGt : VVec → VVec → Bool
  | _ :: _, [] => true
  | [], _ => false
  | a :: as, b :: bs =>
    if a.1 ≠ b.1 then b.1 < a.1
    else if a.2 ≠ b.2 then b.2 < a.2
    else vvLexGt as bs

/-- Modelled from the spec: `FileInfo.WinsConflict` is supplied by the
external `lib/protocol` collaborator, absent from the provided sources.
Spec section 3: "the file that is not deleted wins; ties fall back to
comparing modification time then a byte-order comparison of the version
vector". -/
def winsConflict (a b : FileInfo) : Bool :=
  if a.deleted ≠ b.deleted then !a.deleted
  else if a.modified ≠ b.modified then b.modified < a.modified
  else vvLexGt a.version b.version

/-- An entry of a `versionList`: which device claims which version. -/
structure FileVersion where
  device : Nat
  version : VVec
deriving DecidableEq

/-- The typed keys of the store that the transaction layer touches.  The
distinct constructors model the distinct key-type bytes of the key codec
(`deviceKey`, `globalKey`), whose encoders are injective with disjoint
ranges; the codec itself is not among the provided sources (spec
section 4.2). -/
inductive Key where
  | device (folder : Nat) (dev : Nat) (name : List Nat)
  | global (folder : Nat) (name : List Nat)
deriving DecidableEq

/-- A stored value: a serialized `FileInfo` under a device key or a
serialized `versionList` under a global key. -/
inductive Val where
  | fi (f : FileInfo)
  | vl (l : List FileVersion)
deriving DecidableEq

/-- Result of a store `Get`: the engine may answer with a value, with
not-found, or with an I/O error (spec sections 6 and 7). -/
inductive GetRes where
  | found (v : Val)
  | notFound
  | ioError
deriving DecidableEq

/-- The key-value store, read through a snapshot. -/
def Store := Key → GetRes

/-- Batch `Put`, committed. -/
def put (s : Store) (k : Key) (v : Val) : Store :=
  fun k' => if k' = k then .found v else s k'

/-- Batch `Delete`, committed. -/
def del (s : Store) (k : Key) : Store :=
  fun k' => if k' = k then .notFound else s k'

/-- `getFile` of the transaction: read and unmarshal the `FileInfo` stored at
a device key.  `none` covers the not-found answer (surfaced to callers as
`ok = false`) as well as I/O errors and corrupt values; every call site in
the verified code panics in all of these cases alike. -/
def getFileOpt (s : Store) (folder device : Nat) (name : List Nat) : Option FileInfo :=
  match s (.device folder device name) with
  | .found (.fi f) => some f
  | _ => none

/-- The `(files, deletes, bytes)` accumulator triple of the size tracker. -/
structure Counters where
  files : Int
  deletes : Int
  bytes : Int
deriving DecidableEq

/-- Modelled from the spec (section 4.4, the sizeTracker source is not among
the provided files): `addFile` increments `files` by one and `bytes` by the
file size, unless the file is deleted, in which case only `deletes` grows. -/
def Counters.addFile (c : Counters) (f : FileInfo) : Counters :=
  if f.deleted then { c with deletes := c.deletes + 1 }
  else { c with files := c.files + 1, bytes := c.bytes + f.fsize }

/-- Modelled from the spec (section 4.4): the inverse of `addFile`. -/
def Counters.removeFile (c : Counters) (f : FileInfo) : Counters :=
  if f.deleted then { c with deletes := c.deletes - 1 }
  else { c with files := c.files - 1, bytes := c.bytes - f.fsize }

/-- The in-memory size tracker: `global`, `insync[device]` and
`need[device]` accumulators.  The per-device maps auto-create zero entries,
modelled as total functions. -/
structure SizeTracker where
  global : Counters
  insync : Nat → Counters
  need : Nat → Counters

/-- `size.insync(device).addFile(file)`. -/
def SizeTracker.insyncAdd (sz : SizeTracker) (d : Nat) (f : FileInfo) : SizeTracker :=
  { sz with insync := fun d' => if d' = d then (sz.insync d).addFile f else sz.insync d' }

/-- `size.insync(device).removeFile(file)`. -/
def SizeTracker.insyncRemove (sz : SizeTracker) (d : Nat) (f : FileInfo) : SizeTracker :=
  { sz with insync := fun d' => if d' = d then (sz.insync d).removeFile f else sz.insync d' }

/-- `size.global.addFile(file)`. -/
def SizeTracker.globalAdd (sz : SizeTracker) (f : FileInfo) : SizeTracker :=
  { sz with global := sz.global.addFile f }

/-- `size.global.removeFile(file)`. -/
def SizeTracker.globalRemove (sz : SizeTracker) (f : FileInfo) : SizeTracker :=
  { sz with global := sz.global.removeFile f }

/-- The all-zero size tracker. -/
def SizeTracker.zero : SizeTracker :=
  { global := ⟨0, 0, 0⟩, insync := fun _ => ⟨0, 0, 0⟩, need := fun _ => ⟨0, 0, 0⟩ }

/-- `insertFile` (leveldb_transactions.go, lines 73-85): write the file at
its device key, assigning `tickv` (the next monotonic clock tick) as local
version when the incoming one is zero; return the local version written. -/
def insertFile (folder device : Nat) (file : FileInfo) (tickv : Int) (s : Store) :
    Int × Store :=
  let file' := if file.localVersion = 0 then { file with localVersion := tickv } else file
  (file'.localVersion, put s (.device folder device file'.name) (.fi file'))

/-- The first loop of `updateGlobal` (lines 114-125): scan the copied version
list for an existing entry of the device; if its version equals the incoming
one exactly, return `false` early (modelled as `none`), otherwise drop that
entry and stop scanning. -/
def scanRemove (device : Nat) (v : VVec) : List FileVersion → Option (List FileVersion)
  | [] => some []
  | e :: rest =>
    if e.device = device then
      if vecEq e.version v then none
      else some rest
    else
      (scanRemove device v rest).map (fun l => e :: l)

/-- The insertion loop of `updateGlobal` (lines 132-161): walk the list and
insert the new entry in front of the first equal-or-lesser version, or in
front of the first concurrent version whose stored file loses the conflict;
append at the end when no position qualifies.  `none` models the panic when a
concurrent entry references a missing device record. -/
def insertLoop (s : Store) (folder device : Nat) (file : FileInfo) :
    List FileVersion → Option (List FileVersion)
  | [] => some [⟨device, file.version⟩]
  | e :: rest =>
    match vcompare e.version file.version with
    | .eq | .lt => some (⟨device, file.version⟩ :: e :: rest)
    | .cgt | .clt =>
      match getFileOpt s folder e.device file.name with
      | none => none
      | some of =>
        if winsConflict file of then some (⟨device, file.version⟩ :: e :: rest)
        else (insertLoop s folder device file rest).map (fun l => e :: l)
    | .gt => (insertLoop s folder device file rest).map (fun l => e :: l)

/-- `updateGlobalSizeFixup` (lines 171-221), the incremental size repair run
after a successful global update.  `none` models the
"replacing non-existant file" panic. -/
def updateGlobalSizeFixup (s : Store) (folder device : Nat) (name : List Nat)
    (file : FileInfo) (oldV newV : List FileVersion) (sz : SizeTracker) :
    Option SizeTracker :=
  match oldV with
  | [] => some ((sz.insyncAdd device file).globalAdd file)
  | o0 :: _ =>
    match newV with
    | [] => none
    | n0 :: _ =>
      if vecEq o0.version n0.version then
        some (if vecEq o0.version file.version then sz.insyncAdd device file else sz)
      else
        match getFileOpt s folder o0.device name with
        | none => none
        | some oldGlobal =>
          let sz1 := (oldV.takeWhile (fun v => vecEq v.version o0.version)).foldl
            (fun acc v => acc.insyncRemove v.device oldGlobal) sz
          let sz2 := (newV.takeWhile (fun v => vecEq v.version n0.version)).foldl
            (fun acc v => acc.insyncAdd v.device file) sz1
          some ((sz2.globalRemove oldGlobal).globalAdd file)

/-- The body of `updateGlobal` once the existing version list `oldV` has been
read (an absent key reads as the empty list): early `false` return on an
exactly-equal existing entry, otherwise insert, write back and run the size
fixup. -/
def updateGlobalWith (folder device : Nat) (file : FileInfo) (s : Store) (sz : SizeTracker)
    (oldV : List FileVersion) : Option (Bool × Store × SizeTracker) :=
  match scanRemove device file.version oldV with
  | none => some (false, s, sz)
  | some removed =>
    match insertLoop s folder device file removed with
    | none => none
    | some newV =>
      match updateGlobalSizeFixup s folder device file.name file oldV newV sz with
      | none => none
      | some sz' => some (true, put s (.global folder file.name) (.vl newV), sz')

/-- `updateGlobal` (lines 90-169): one committed update of the version list
of `file.name`.  Returns `some (changed, store, tracker)`, or `none` when the
code would panic (I/O error reading the list, corrupt value, or a version
list referencing a missing device record). -/
def updateGlobal (folder device : Nat) (file : FileInfo) (s : Store) (sz : SizeTracker) :
    Option (Bool × Store × SizeTracker) :=
  match s (.global folder file.name) with
  | .ioError => none
  | .found (.fi _) => none
  | .notFound => updateGlobalWith folder device file s sz []
  | .found (.vl l) => updateGlobalWith folder device file s sz l

/-- The removal loop of `removeFromGlobal` (lines 245-250): drop the first
entry of the device, keep everything else. -/
def removeFirstDev (device : Nat) : List FileVersion → List FileVersion
  | [] => []
  | e :: rest => if e.device = device then rest else e :: removeFirstDev device rest

/-- `removeGlobalSizeFixup` (lines 262-330).  `none` models the
"replacing/promoting non-existant file" panics. -/
def removeGlobalSizeFixup (s : Store) (folder device : Nat) (name : List Nat)
    (oldV newV : List FileVersion) (sz : SizeTracker) : Option SizeTracker :=
  match oldV with
  | [] => some sz
  | o0 :: _ =>
    match getFileOpt s folder o0.device name with
    | none => none
    | some oldGlobal =>
      match newV with
      | [] => some ((sz.insyncRemove device oldGlobal).globalRemove oldGlobal)
      | n0 :: _ =>
        let removedVersion : VVec :=
          ((oldV.find? (fun v => v.device = device)).map (fun v => v.version)).getD []
        if vecEq o0.version n0.version then
          some (if vecEq o0.version removedVersion then sz.insyncRemove device oldGlobal else sz)
        else
          let sz1 := (oldV.takeWhile (fun v => vecEq v.version o0.version)).foldl
            (fun acc v => acc.insyncRemove v.device oldGlobal) sz
          match getFileOpt s folder n0.device name with
          | none => none
          | some newGlobal =>
            let sz2 := (newV.takeWhile (fun v => vecEq v.version n0.version)).foldl
              (fun acc v => acc.insyncAdd v.device newGlobal) sz1
            some ((sz2.globalRemove oldGlobal).globalAdd newGlobal)

/-- `removeFromGlobal` (lines 226-260): one committed removal of a device
from the version list of `name`.  Any `Get` error makes it return silently
with nothing changed; an empty resulting list deletes the global key instead
of being written. -/
def removeFromGlobal (folder device : Nat) (name : List Nat) (s : Store) (sz : SizeTracker) :
    Option (Store × SizeTracker) :=
  match s (.global folder name) with
  | .notFound => some (s, sz)
  | .ioError => some (s, sz)
  | .found (.fi _) => none
  | .found (.vl oldV) =>
    let newV := removeFirstDev device oldV
    let s' := if newV = [] then del s (.global folder name) else put s (.global folder name) (.vl newV)
    (removeGlobalSizeFixup s folder device name oldV newV sz).map (fun sz' => (s', sz'))

/-! ## The block map and block finder (blockmap.go)

The block map depends on the raw bytes of its keys (its `Add`/`Update` use a
33-byte `[KeyTypeBlock ++ hash]` key while `Discard`/`Drop`/`Iterate`/`Fix`
use the `[KeyTypeBlock ++ folderID ++ hash ++ name]` layout), so here the
store is modelled at the byte level: an association list from key bytes to
value bytes, with a write batch applied on flush/commit exactly as the
source accumulates a `leveldb.Batch`. -/

/-- `KeyTypeBlock`, the type byte of block keys.  Modelled from the spec's
key-type table (the constant lives in a file not among the provided sources;
only its distinctness from the other type bytes matters). -/
def KeyTypeBlock : Nat := 2

/-- `maxBatchSize` (blockmap.go line 23): the batch length bound checked
before each file. -/
def maxBatchSize : Nat := 256 * 1024

/-- Big-endian encoding of a 32-bit value, as `binary.BigEndian.PutUint32`
produces. -/
def u32be (n : Nat) : List Nat :=
  [n / 2 ^ 24 % 256, n / 2 ^ 16 % 256, n / 2 ^ 8 % 256, n % 256]

/-- `binary.BigEndian.Uint32` over a byte slice; `none` models the slice
bounds panic when fewer than four bytes are present. -/
def beU32 : List Nat → Option Nat
  | a :: b :: c :: d :: _ => some (((a * 256 + b) * 256 + c) * 256 + d)
  | _ => none

/-- `blockmapLocation`: the folder/name/block-index triple stored per block
hash by `Add`/`Update`. -/
structure BlockmapLocation where
  folderID : Nat
  nameID : Nat
  blockIdx : Nat
deriving DecidableEq

/-- XDR marshalling of a `blockmapList`: an element count followed by the
three 32-bit fields of each location. -/
def marshalLocs (l : List BlockmapLocation) : List Nat :=
  u32be l.length ++ l.flatMap (fun loc => u32be loc.folderID ++ u32be loc.nameID ++ u32be loc.blockIdx)

/-- XDR parsing of the locations of a `blockmapList`, given the element
count. -/
def parseLocsAux : Nat → List Nat → Option (List BlockmapLocation)
  | 0, _ => some []
  | n + 1, bs =>
    match beU32 bs, beU32 (bs.drop 4), beU32 (bs.drop 8) with
    | some a, some b, some c =>
      (parseLocsAux n (bs.drop 12)).map (fun l => ⟨a, b, c⟩ :: l)
    | _, _, _ => none

/-- XDR parsing of a `blockmapList`. -/
def parseLocs (bs : List Nat) : Option (List BlockmapLocation) :=
  match beU32 bs with
  | none => none
  | some n => parseLocsAux n (bs.drop 4)

/-- The byte-keyed store backing the block map, as an association list; the
write batch is a list of pending puts and deletes. -/
abbrev BStore := List (List Nat × List Nat)

/-- `Get` on the byte store: the database answers not-found (`none`) when
the key is absent. -/
def bget (s : BStore) (k : List Nat) : Option (List Nat) :=
  (s.find? (fun kv => kv.1 = k)).map (fun kv => kv.2)

/-- One operation of a `leveldb.Batch`. -/
inductive BOp where
  | bput (k v : List Nat)
  | bdel (k : List Nat)

/-- Apply one batch operation to the store. -/
def applyBOp (s : BStore) : BOp → BStore
  | .bput k v => s.filter (fun kv => kv.1 ≠ k) ++ [(k, v)]
  | .bdel k => s.filter (fun kv => kv.1 ≠ k)

/-- `db.Write(batch)`: apply all pending operations in order. -/
def applyBatch (s : BStore) (b : List BOp) : BStore :=
  b.foldl applyBOp s

/-- `copy(dst[off:], src)` on byte buffers: overwrite from `off`, never
growing `dst`. -/
def copyInto (dst : List Nat) (off : Nat) (src : List Nat) : List Nat :=
  dst.take off ++ src.take (dst.length - off) ++ dst.drop (off + src.length)

/-- `blockKeyInto` (blockmap.go lines 236-248): the
`[KeyTypeBlock ++ 4-byte folder ++ 32-byte hash ++ name]` key.  The source
reuses a buffer; with the 32-byte hashes the code handles, every byte of the
result is freshly written, which this value-level form captures. -/
def blockKeyBytes (hash : List Nat) (folder : Nat) (file : List Nat) : List Nat :=
  KeyTypeBlock :: u32be folder ++ (hash ++ List.replicate 32 0).take 32 ++ file

/-- The body of the per-block loop of `BlockMap.Add` (lines 56-74): place the
hash after the type byte of the reused 33-byte key, read the present
location list from the database (the batch is not visible to `Get`), append
this file's location and queue the rewritten list. -/
def blockMapAddBlock (db : BStore) (folderID nameID : Nat) (key : List Nat)
    (batch : List BOp) (i : Nat) (b : Block) : List Nat × List BOp :=
  let key := copyInto key 1 b.hash
  let bl : List BlockmapLocation :=
    match bget db key with
    | some bs => (parseLocs bs).getD []
    | none => []
  let bl := bl ++ [⟨folderID, nameID, i⟩]
  (key, batch ++ [.bput key (marshalLocs bl)])

/-- The per-file loop of `BlockMap.Add` with its batch-size flush check
(lines 43-75), threading the database, the batch and the reused key
buffer. -/
def blockMapAddFiles (folderID : Nat) (nameID : List Nat → Nat) :
    List FileInfo → BStore → List BOp → List Nat → BStore × List BOp
  | [], db, batch, _ => (db, batch)
  | file :: files, db, batch, key =>
    let (db, batch) := if batch.length > maxBatchSize then (applyBatch db batch, []) else (db, batch)
    if file.directory || file.deleted || file.invalid then
      blockMapAddFiles folderID nameID files db batch key
    else
      let nid := nameID file.name
      let (key, batch) := (file.blocks.enum).foldl
        (fun acc p => blockMapAddBlock db folderID nid acc.1 acc.2 p.1 p.2) (key, batch)
      blockMapAddFiles folderID nameID files db batch key

/-- `BlockMap.Add` (lines 38-77): add the files' blocks, skipping
directories, deleted and invalid files, and commit the batch. -/
def blockMapAdd (folderID : Nat) (nameID : List Nat → Nat) (files : List FileInfo)
    (db : BStore) : BStore :=
  let key := KeyTypeBlock :: List.replicate 32 0
  let (db, batch) := blockMapAddFiles folderID nameID files db [] key
  applyBatch db batch

/-- The location-removal loop inside `BlockMap.Update` (lines 114-120): drop
the first location matching this folder and name. -/
def removeFirstLoc (folderID nameID : Nat) : List BlockmapLocation → List BlockmapLocation
  | [] => []
  | loc :: rest =>
    if loc.nameID = nameID && loc.folderID = folderID then rest
    else loc :: removeFirstLoc folderID nameID rest

/-- The body of the per-block loop of `BlockMap.Update` for a live file
(lines 106-128): read the list at the *new* hash's 33-byte-layout key, drop
this file's first location from it and queue the rewritten list — without
adding the new location. -/
def blockMapUpdateBlock (db : BStore) (folderID nameID : Nat) (key : List Nat)
    (batch : List BOp) (b : Block) : List Nat × List BOp :=
  let key := copyInto key 1 b.hash
  let bl : List BlockmapLocation :=
    match bget db key with
    | some bs => (parseLocs bs).getD []
    | none => []
  let bl := removeFirstLoc folderID nameID bl
  (key, batch ++ [.bput key (marshalLocs bl)])

/-- The per-file loop of `BlockMap.Update` (lines 85-129): directories are
skipped, deleted and invalid files get their blocks' full-layout keys
deleted, live files go through `blockMapUpdateBlock`.  The reused key buffer
is threaded because the deleted-file branch resizes it. -/
def blockMapUpdateFiles (folderID : Nat) (nameID : List Nat → Nat) :
    List FileInfo → BStore → List BOp → List Nat → BStore × List BOp
  | [], db, batch, _ => (db, batch)
  | file :: files, db, batch, key =>
    let (db, batch) := if batch.length > maxBatchSize then (applyBatch db batch, []) else (db, batch)
    if file.directory then
      blockMapUpdateFiles folderID nameID files db batch key
    else if file.deleted || file.invalid then
      let (key, batch) := file.blocks.foldl
        (fun acc b =>
          let k := blockKeyBytes b.hash folderID file.name
          (k, acc.2 ++ [.bdel k]))
        (key, batch)
      blockMapUpdateFiles folderID nameID files db batch key
    else
      let nid := nameID file.name
      let (key, batch) := file.blocks.foldl
        (fun acc b => blockMapUpdateBlock db folderID nid acc.1 acc.2 b) (key, batch)
      blockMapUpdateFiles folderID nameID files db batch key

/-- `BlockMap.Update` (lines 80-131). -/
def blockMapUpdate (folderID : Nat) (nameID : List Nat → Nat) (files : List FileInfo)
    (db : BStore) : BStore :=
  let key := KeyTypeBlock :: List.replicate 32 0
  let (db, batch) := blockMapUpdateFiles folderID nameID files db [] key
  applyBatch db batch

/-- `blockKeyName` (lines 251-261): recover the file name from a block key;
`none` models the length and key-type panics. -/
def blockKeyName (data : List Nat) : Option (List Nat) :=
  if data.length < 1 + 4 + 32 + 1 then none
  else if data.head? ≠ some KeyTypeBlock then none
  else some (data.drop 37)

/-- The inner hit loop of `BlockFinder.Iterate` (lines 207-213): for each key
under the scanned region, decode the trailing name and the big-endian block
index and hand them to the callback; `some true` stops the scan. -/
def iterateHits (fn : List Nat → List Nat → Nat → Bool) (folder : List Nat) :
    List (List Nat × List Nat) → Option Bool
  | [] => some false
  | (k, v) :: rest =>
    match blockKeyName k, beU32 v with
    | some nm, some ix =>
      if fn folder nm ix then some true else iterateHits fn folder rest
    | _, _ => none

/-- `BlockFinder.Iterate` (lines 199-216): prefix-scan
`[KeyTypeBlock ++ folderID ++ hash]` for each folder and feed every hit to
the callback, stopping at the first `true`.  The association list stands in
for the ordered iterator; the claims proved about it do not depend on hit
order. -/
def blockFinderIterate (folderIdxID : List Nat → Nat) (db : BStore)
    (folders : List (List Nat)) (hash : List Nat)
    (fn : List Nat → List Nat → Nat → Bool) : Option Bool :=
  match folders with
  | [] => some false
  | folder :: rest =>
    let pfx := blockKeyBytes hash (folderIdxID folder) []
    match iterateHits fn folder (db.filter (fun kv => pfx.isPrefixOf kv.1)) with
    | some true => some true
    | some false => blockFinderIterate folderIdxID db rest hash fn
    | none => none

/-- `Clock.Tick` (package clock): one tick given the previous value `last`
and the current wall-clock nanosecond reading `now`. -/
def tickStep (last now : Int) : Int :=
  if now > last then now else last + 1

/-- The outputs of successive `Clock.Tick` calls over a stream of wall-clock
readings. -/
def clockTicks (last : Int) : List Int → List Int
  | [] => []
  | r :: rs => tickStep last r :: clockTicks (tickStep last r) rs

/-- One call of the public database mutators, for reasoning about call
sequences; `ins` carries the wall-clock reading the monotonic clock would
observe if a tick is taken. -/
inductive Op where
  | ins (folder device : Nat) (file : FileInfo) (now : Int)
  | upd (folder device : Nat) (file : FileInfo)
  | rem (folder device : Nat) (name : List Nat)

/-- The database state threaded through a sequence of committed calls:
the store, the size tracker and the monotonic clock's last tick. -/
structure DbState where
  store : Store
  size : SizeTracker
  clock : Int

/-- Execute one call.  `insertFile` draws a fresh tick only when the incoming
local version is zero, exactly as the source calls `clock(0)` lazily. -/
def step (st : DbState) : Op → Option DbState
  | .ins folder device file now =>
    let t := tickStep st.clock now
    some { store := (insertFile folder device file t st.store).2,
           size := st.size,
           clock := if file.localVersion = 0 then t else st.clock }
  | .upd folder device file =>
    (updateGlobal folder device file st.store st.size).map
      (fun r => { store := r.2.1, size := r.2.2, clock := st.clock })
  | .rem folder device name =>
    (removeFromGlobal folder device name st.store st.size).map
      (fun r => { store := r.1, size := r.2, clock := st.clock })

/-- Execute a sequence of calls; a panic anywhere aborts the run. -/
def run (st : DbState) : List Op → Option DbState
  | [] => some st
  | op :: ops =>
    match step st op with
    | none => none
    | some st' => run st' ops

/-- The empty database: every key absent, all counters zero, clock at zero. -/
def initState : DbState :=
  { store := fun _ => .notFound, size := .zero, clock := 0 }

/-! ## Helper lemmas -/

/-- A version list with at most one entry per device. -/
abbrev DevNodup (l : List FileVersion) : Prop :=
  l.Pairwise (fun a b => a.device ≠ b.device)

theorem le_foldr_max (l : List (Nat × Nat)) (p : Nat × Nat) (hp : p ∈ l) :
    p.2 ≤ l.foldr (fun q m => max q.2 m) 0 := by
  induction l with
  | nil => cases hp
  | cons a t ih =>
    rcases List.mem_cons.mp hp with rfl | h
    · exact le_max_left _ _
    · exact le_trans (ih h) (le_max_right _ _)

theorem vleq_refl (v : VVec) : vleq v v = true := by
  unfold vleq
  rw [List.all_eq_true]
  intro p hp
  simp only [decide_eq_true_eq]
  unfold vctr
  exact le_foldr_max _ p (List.mem_filter.mpr ⟨hp, by simp⟩)

theorem vecEq_refl (v : VVec) : vecEq v v = true := by
  unfold vecEq
  rw [vleq_refl]
  rfl

/-- The early-`false` scan: when a well-formed list holds an entry of the
device with the exactly equal version, it answers `none`. -/
theorem scanRemove_none_of_mem (d : Nat) (v : VVec) (l : List FileVersion)
    (hn : DevNodup l) (e : FileVersion) (he : e ∈ l) (hd : e.device = d)
    (hv : vecEq e.version v = true) : scanRemove d v l = none := by
  induction l with
  | nil => cases he
  | cons a t ih =>
    rcases List.mem_cons.mp he with rfl | h
    · unfold scanRemove
      rw [if_pos hd, if_pos hv]
    · have hne : ¬a.device = d := by
        intro had
        exact (List.pairwise_cons.mp hn).1 e h (by rw [had, hd])
      unfold scanRemove
      rw [if_neg hne, ih (List.pairwise_cons.mp hn).2 h]
      rfl

/-- After a successful scan over a well-formed list, no entry of the device
remains. -/
theorem scanRemove_some_device_not_mem (d : Nat) (v : VVec) :
    ∀ (l out : List FileVersion), DevNodup l → scanRemove d v l = some out →
      ∀ x ∈ out, x.device ≠ d := by
  intro l
  induction l with
  | nil =>
    intro out _ h x hx
    unfold scanRemove at h
    cases h
    cases hx
  | cons a t ih =>
    intro out hp h x hx
    unfold scanRemove at h
    by_cases had : a.device = d
    · rw [if_pos had] at h
      by_cases hv : vecEq a.version v = true
      · rw [if_pos hv] at h; cases h
      · rw [if_neg hv] at h
        cases h
        intro hxd
        exact (List.pairwise_cons.mp hp).1 x hx (by rw [had, hxd])
    · rw [if_neg had] at h
      cases ho : scanRemove d v t with
      | none => rw [ho] at h; cases h
      | some o =>
        rw [ho] at h
        simp only [Option.map_some'] at h
        cases h
        rcases List.mem_cons.mp hx with rfl | hxt
        · exact had
        · exact ih o (List.pairwise_cons.mp hp).2 ho x hxt

/-- A successful scan returns a sublist of its input. -/
theorem scanRemove_sublist (d : Nat) (v : VVec) :
    ∀ (l out : List FileVersion), scanRemove d v l = some out → out.Sublist l := by
  intro l
  induction l with
  | nil =>
    intro out h
    unfold scanRemove at h
    cases h
    exact List.Sublist.refl _
  | cons a t ih =>
    intro out h
    unfold scanRemove at h
    by_cases had : a.device = d
    · rw [if_pos had] at h
      by_cases hv : vecEq a.version v = true
      · rw [if_pos hv] at h; cases h
      · rw [if_neg hv] at h
        cases h
        exact List.sublist_cons_self a t
    · rw [if_neg had] at h
      cases ho : scanRemove d v t with
      | none => rw [ho] at h; cases h
      | some o =>
        rw [ho] at h
        simp only [Option.map_some'] at h
        cases h
        exact List.Sublist.cons₂ a (ih o ho)

/-- The claim-side characterization of the insertion position (from the
words of the spec and of claim C3): the new entry goes in front of an entry
iff that entry's version compares `Equal` or `Lesser`, or is concurrent and
the new file wins the conflict against the entry's stored file; `none` means
the concurrent entry's file is unreadable. -/
def insertsBefore (s : Store) (folder : Nat) (file : FileInfo) (e : FileVersion) :
    Option Bool :=
  match vcompare e.version file.version with
  | .eq => some true
  | .lt => some true
  | .gt => some false
  | .cgt => (getFileOpt s folder e.device file.name).map (fun of => winsConflict file of)
  | .clt => (getFileOpt s folder e.device file.name).map (fun of => winsConflict file of)

/-- A successful insertion loop inserts the new entry exactly at the first
position whose entry satisfies `insertsBefore`, appending when none does. -/
theorem insertLoop_split (s : Store) (folder device : Nat) (file : FileInfo) :
    ∀ (l l' : List FileVersion), insertLoop s folder device file l = some l' →
      ∃ pre post, l = pre ++ post ∧
        l' = pre ++ ⟨device, file.version⟩ :: post ∧
        (∀ e ∈ pre, insertsBefore s folder file e = some false) ∧
        (post = [] ∨ ∃ e rest, post = e :: rest ∧ insertsBefore s folder file e = some true) := by
  intro l
  induction l with
  | nil =>
    intro l' h
    unfold insertLoop at h
    cases h
    exact ⟨[], [], rfl, rfl, (by intro e he; cases he), Or.inl rfl⟩
  | cons a t ih =>
    intro l' h
    unfold insertLoop at h
    cases hc : vcompare a.version file.version with
    | eq =>
      rw [hc] at h
      cases h
      exact ⟨[], a :: t, rfl, rfl, (by intro e he; cases he),
        Or.inr ⟨a, t, rfl, (by unfold insertsBefore; rw [hc])⟩⟩
    | lt =>
      rw [hc] at h
      cases h
      exact ⟨[], a :: t, rfl, rfl, (by intro e he; cases he),
        Or.inr ⟨a, t, rfl, (by unfold insertsBefore; rw [hc])⟩⟩
    | gt =>
      rw [hc] at h
      cases ho : insertLoop s folder device file t with
      | none => rw [ho] at h; cases h
      | some o =>
        rw [ho] at h
        simp only [Option.map_some'] at h
        cases h
        obtain ⟨pre, post, h1, h2, h3, h4⟩ := ih o ho
        refine ⟨a :: pre, post, by rw [h1]; rfl, by rw [h2]; rfl, ?_, h4⟩
        intro e he
        rcases List.mem_cons.mp he with rfl | hep
        · unfold insertsBefore; rw [hc]
        · exact h3 e hep
    | cgt =>
      rw [hc] at h
      dsimp only at h
      cases hf : getFileOpt s folder a.device file.name with
      | none => rw [hf] at h; cases h
      | some of =>
        rw [hf] at h
        dsimp only at h
        by_cases hw : winsConflict file of = true
        · rw [if_pos hw] at h
          cases h
          exact ⟨[], a :: t, rfl, rfl, (by intro e he; cases he),
            Or.inr ⟨a, t, rfl, (by unfold insertsBefore; rw [hc, hf]; simp [hw])⟩⟩
        · rw [if_neg hw] at h
          cases ho : insertLoop s folder device file t with
          | none => rw [ho] at h; cases h
          | some o =>
            rw [ho] at h
            simp only [Option.map_some'] at h
            cases h
            obtain ⟨pre, post, h1, h2, h3, h4⟩ := ih o ho
            refine ⟨a :: pre, post, by rw [h1]; rfl, by rw [h2]; rfl, ?_, h4⟩
            intro e he
            rcases List.mem_cons.mp he with rfl | hep
            · unfold insertsBefore
              rw [hc, hf]
              simp [Bool.eq_false_iff.mpr hw]
            · exact h3 e hep
    | clt =>
      rw [hc] at h
      dsimp only at h
      cases hf : getFileOpt s folder a.device file.name with
      | none => rw [hf] at h; cases h
      | some of =>
        rw [hf] at h
        dsimp only at h
        by_cases hw : winsConflict file of = true
        · rw [if_pos hw] at h
          cases h
          exact ⟨[], a :: t, rfl, rfl, (by intro e he; cases he),
            Or.inr ⟨a, t, rfl, (by unfold insertsBefore; rw [hc, hf]; simp [hw])⟩⟩
        · rw [if_neg hw] at h
          cases ho : insertLoop s folder device file t with
          | none => rw [ho] at h; cases h
          | some o =>
            rw [ho] at h
            simp only [Option.map_some'] at h
            cases h
            obtain ⟨pre, post, h1, h2, h3, h4⟩ := ih o ho
            refine ⟨a :: pre, post, by rw [h1]; rfl, by rw [h2]; rfl, ?_, h4⟩
            intro e he
            rcases List.mem_cons.mp he with rfl | hep
            · unfold insertsBefore
              rw [hc, hf]
              simp [Bool.eq_false_iff.mpr hw]
            · exact h3 e hep

/-- Inserting an entry of an unused device in the middle of a well-formed
list keeps it well-formed. -/
theorem nodup_insert_mid (pre post : List FileVersion) (nv : FileVersion)
    (hn : DevNodup (pre ++ post)) (hd : ∀ x ∈ pre ++ post, x.device ≠ nv.device) :
    DevNodup (pre ++ nv :: post) := by
  show List.Pairwise _ (pre ++ nv :: post)
  have hn' : List.Pairwise (fun a b => a.device ≠ b.device) (pre ++ post) := hn
  rw [List.pairwise_append] at hn'
  rw [List.pairwise_append]
  refine ⟨hn'.1, ?_, ?_⟩
  · rw [List.pairwise_cons]
    refine ⟨?_, hn'.2.1⟩
    intro b hb
    exact fun hEq => hd b (List.mem_append.mpr (Or.inr hb)) hEq.symm
  · intro a ha b hb
    rcases List.mem_cons.mp hb with rfl | hbp
    · exact hd a (List.mem_append.mpr (Or.inl ha))
    · exact hn'.2.2 a ha b hbp

theorem put_ne (s : Store) (k k' : Key) (v : Val) (h : k' ≠ k) : put s k v k' = s k' := by
  unfold put
  rw [if_neg h]

theorem put_eq (s : Store) (k : Key) (v : Val) : put s k v k = .found v := by
  unfold put
  rw [if_pos rfl]

theorem del_ne (s : Store) (k k' : Key) (h : k' ≠ k) : del s k k' = s k' := by
  unfold del
  rw [if_neg h]

theorem del_eq (s : Store) (k : Key) : del s k k = .notFound := by
  unfold del
  rw [if_pos rfl]

/-- Complete case analysis of a successful `updateGlobalWith`. -/
theorem updateGlobalWith_cases (folder device : Nat) (file : FileInfo) (s : Store)
    (sz : SizeTracker) (oldV : List FileVersion) (r : Bool × Store × SizeTracker)
    (h : updateGlobalWith folder device file s sz oldV = some r) :
    (scanRemove device file.version oldV = none ∧ r = (false, s, sz)) ∨
    (∃ removed newV sz',
      scanRemove device file.version oldV = some removed ∧
      insertLoop s folder device file removed = some newV ∧
      updateGlobalSizeFixup s folder device file.name file oldV newV sz = some sz' ∧
      r = (true, put s (.global folder file.name) (.vl newV), sz')) := by
  unfold updateGlobalWith at h
  cases hs : scanRemove device file.version oldV with
  | none =>
    rw [hs] at h
    cases h
    exact Or.inl ⟨rfl, rfl⟩
  | some removed =>
    rw [hs] at h
    dsimp only at h
    cases hi : insertLoop s folder device file removed with
    | none => rw [hi] at h; cases h
    | some newV =>
      rw [hi] at h
      dsimp only at h
      cases hf : updateGlobalSizeFixup s folder device file.name file oldV newV sz with
      | none => rw [hf] at h; cases h
      | some sz' =>
        rw [hf] at h
        cases h
        exact Or.inr ⟨removed, newV, sz', rfl, hi, hf, rfl⟩

/-- A successful update of a well-formed version list yields a well-formed
list whose only entry of the device is the newly inserted one. -/
theorem updateGlobal_newV_nodup (folder device : Nat) (file : FileInfo) (s : Store)
    (oldV removed newV : List FileVersion) (hn : DevNodup oldV)
    (hs : scanRemove device file.version oldV = some removed)
    (hi : insertLoop s folder device file removed = some newV) :
    DevNodup newV := by
  have hsub := scanRemove_sublist device file.version oldV removed hs
  have hrn : DevNodup removed := List.Pairwise.sublist hsub hn
  have hnd := scanRemove_some_device_not_mem device file.version oldV removed hn hs
  obtain ⟨pre, post, h1, h2, h3, h4⟩ := insertLoop_split s folder device file removed newV hi
  subst h1 h2
  exact nodup_insert_mid pre post ⟨device, file.version⟩ hrn hnd

/-- Complete case analysis of a successful `removeFromGlobal` on a present
version list. -/
theorem removeFromGlobal_found (folder device : Nat) (name : List Nat) (s : Store)
    (sz : SizeTracker) (oldV : List FileVersion) (r : Store × SizeTracker)
    (hg : s (.global folder name) = .found (.vl oldV))
    (h : removeFromGlobal folder device name s sz = some r) :
    ∃ sz', removeGlobalSizeFixup s folder device name oldV (removeFirstDev device oldV) sz = some sz' ∧
      r = ((if removeFirstDev device oldV = [] then del s (.global folder name)
            else put s (.global folder name) (.vl (removeFirstDev device oldV))), sz') := by
  unfold removeFromGlobal at h
  rw [hg] at h
  dsimp only at h
  cases hf : removeGlobalSizeFixup s folder device name oldV (removeFirstDev device oldV) sz with
  | none => rw [hf] at h; cases h
  | some sz' =>
    rw [hf] at h
    simp only [Option.map_some'] at h
    cases h
    exact ⟨sz', rfl, rfl⟩

theorem removeFirstDev_sublist (d : Nat) : ∀ l : List FileVersion, (removeFirstDev d l).Sublist l := by
  intro l
  induction l with
  | nil => exact List.Sublist.refl _
  | cons a t ih =>
    unfold removeFirstDev
    by_cases h : a.device = d
    · rw [if_pos h]
      exact List.sublist_cons_self a t
    · rw [if_neg h]
      exact List.Sublist.cons₂ a ih

/-- The store invariant behind claim C7: every persisted version list has at
most one entry per device. -/
def StoreWF (s : Store) : Prop :=
  ∀ folder name l, s (.global folder name) = .found (.vl l) → DevNodup l

theorem stepWF (st st' : DbState) (op : Op) (hw : StoreWF st.store)
    (h : step st op = some st') : StoreWF st'.store := by
  cases op with
  | ins folder device file now =>
    unfold step at h
    cases h
    intro f n l hl
    unfold insertFile at hl
    dsimp only at hl
    rw [put_ne _ _ _ _ (by simp)] at hl
    exact hw f n l hl
  | upd folder device file =>
    unfold step at h
    dsimp only at h
    cases hu : updateGlobal folder device file st.store st.size with
    | none => rw [hu] at h; cases h
    | some r =>
      rw [hu] at h
      simp only [Option.map_some'] at h
      cases h
      unfold updateGlobal at hu
      have main : ∀ oldV, DevNodup oldV →
          updateGlobalWith folder device file st.store st.size oldV = some r →
          StoreWF r.2.1 := by
        intro oldV hnod hu
        rcases updateGlobalWith_cases folder device file st.store st.size oldV r hu with
          ⟨_, hr⟩ | ⟨removed, newV, sz', hs, hi, _, hr⟩
        · rw [hr]; exact hw
        · rw [hr]
          dsimp only
          intro f n l hl
          by_cases hk : (Key.global f n) = (Key.global folder file.name)
          · rw [hk, put_eq] at hl
            cases hl
            exact updateGlobal_newV_nodup folder device file st.store oldV removed newV
              hnod hs hi
          · rw [put_ne _ _ _ _ hk] at hl
            exact hw f n l hl
      cases hg : st.store (.global folder file.name) with
      | ioError => rw [hg] at hu; cases hu
      | notFound =>
        rw [hg] at hu
        exact main [] List.Pairwise.nil hu
      | found v =>
        cases v with
        | fi _ => rw [hg] at hu; cases hu
        | vl oldV =>
          rw [hg] at hu
          exact main oldV (hw folder file.name oldV hg) hu
  | rem folder device name =>
    unfold step at h
    dsimp only at h
    cases hu : removeFromGlobal folder device name st.store st.size with
    | none => rw [hu] at h; cases h
    | some r =>
      rw [hu] at h
      simp only [Option.map_some'] at h
      cases h
      cases hg : st.store (.global folder name) with
      | ioError =>
        unfold removeFromGlobal at hu
        rw [hg] at hu
        cases hu
        exact hw
      | notFound =>
        unfold removeFromGlobal at hu
        rw [hg] at hu
        cases hu
        exact hw
      | found v =>
        cases v with
        | fi _ =>
          unfold removeFromGlobal at hu
          rw [hg] at hu
          cases hu
        | vl oldV =>
          obtain ⟨sz', _, hr⟩ := removeFromGlobal_found folder device name st.store st.size oldV r hg hu
          rw [hr]
          dsimp only
          intro f n l hl
          by_cases hnv : removeFirstDev device oldV = []
          · rw [if_pos hnv] at hl
            by_cases hk : (Key.global f n) = (Key.global folder name)
            · rw [hk, del_eq] at hl
              cases hl
            · rw [del_ne _ _ _ hk] at hl
              exact hw f n l hl
          · rw [if_neg hnv] at hl
            by_cases hk : (Key.global f n) = (Key.global folder name)
            · rw [hk, put_eq] at hl
              cases hl
              exact List.Pairwise.sublist (removeFirstDev_sublist device oldV)
                (hw folder name oldV hg)
            · rw [put_ne _ _ _ _ hk] at hl
              exact hw f n l hl

theorem runWF (ops : List Op) : ∀ (st st' : DbState), StoreWF st.store →
    run st ops = some st' → StoreWF st'.store := by
  induction ops with
  | nil =>
    intro st st' hw h
    unfold run at h
    cases h
    exact hw
  | cons op rest ih =>
    intro st st' hw h
    unfold run at h
    cases hs : step st op with
    | none => rw [hs] at h; cases h
    | some st1 =>
      rw [hs] at h
      exact ih st1 st' (stepWF st st1 op hw hs) h

/-! ## The claims -/

/-- Claim C9: every `Clock.Tick` returns `max(last + 1, now)` where `now` is
the current wall-clock nanosecond reading and `last` the previously returned
value; hence over any stream of readings (repeating or decreasing included)
the successive return values strictly increase and never repeat. -/
theorem C9_tick_max_strict_monotone (last now : Int) (reads : List Int) :
    tickStep last now = max (last + 1) now ∧
    List.Chain (fun a b => a < b) last (clockTicks last reads) ∧
    (clockTicks last reads).Pairwise (fun a b => a ≠ b) := by
  have hch : ∀ (rs : List Int) (l0 : Int), List.Chain (fun a b => a < b) l0 (clockTicks l0 rs) := by
    intro rs
    induction rs with
    | nil => intro l0; exact List.Chain.nil
    | cons r t ih =>
      intro l0
      unfold clockTicks
      refine List.Chain.cons ?_ (ih _)
      unfold tickStep
      split <;> omega
  refine ⟨?_, hch reads last, ?_⟩
  · unfold tickStep
    rcases max_cases (last + 1) now with ⟨h1, h2⟩ | ⟨h1, h2⟩ <;> rw [h1] <;> split <;> omega
  · have hp : (last :: clockTicks last reads).Pairwise (fun a b => a < b) :=
      List.chain_iff_pairwise.mp (hch reads last)
    exact ((List.pairwise_cons.mp hp).2).imp (fun hlt => ne_of_lt hlt)

/-- Claim C10: whenever the snapshot `Get` of the global key returns any
error — I/O errors included, not only not-found — `removeFromGlobal` returns
immediately, writing and deleting nothing and leaving the size tracker
untouched, rather than aborting. -/
theorem C10_remove_silent_on_any_get_error (folder device : Nat) (name : List Nat)
    (s : Store) (sz : SizeTracker)
    (h : s (.global folder name) = .notFound ∨ s (.global folder name) = .ioError) :
    removeFromGlobal folder device name s sz = some (s, sz) := by
  rcases h with h | h <;> unfold removeFromGlobal <;> rw [h]

/-- A store whose every read fails with an I/O error. -/
def c10store : Store := fun _ => .ioError

/-- Witness for C10: on a store whose reads fail with I/O errors, the removal
is a silent no-op rather than a panic. -/
theorem C10_witness :
    removeFromGlobal 0 1 [0] c10store SizeTracker.zero = some (c10store, SizeTracker.zero) :=
  C10_remove_silent_on_any_get_error 0 1 [0] c10store SizeTracker.zero (Or.inr rfl)

/-- `insertFile` in explicit form. -/
theorem insertFile_eq (folder device : Nat) (file : FileInfo) (tickv : Int) (s : Store) :
    insertFile folder device file tickv s =
      ((if file.localVersion = 0 then tickv else file.localVersion),
       put s (.device folder device file.name)
         (.fi { file with localVersion := if file.localVersion = 0 then tickv else file.localVersion })) := by
  unfold insertFile
  by_cases h0 : file.localVersion = 0
  · simp only [if_pos h0]
  · simp only [if_neg h0]

/-- Claim C8: `insertFile` writes exactly the device key of the file and no
other key, never touches the size counters, returns the incoming
localVersion when it is nonzero, and when it is zero assigns a fresh
monotonic tick, stores it in the written record and returns it. -/
theorem C8_insertFile_frame (folder device : Nat) (file : FileInfo) (tickv : Int) (s : Store) :
    (∀ k, k ≠ Key.device folder device file.name →
      (insertFile folder device file tickv s).2 k = s k) ∧
    (insertFile folder device file tickv s).2 (Key.device folder device file.name) =
      .found (.fi { file with localVersion := (insertFile folder device file tickv s).1 }) ∧
    (file.localVersion ≠ 0 → (insertFile folder device file tickv s).1 = file.localVersion) ∧
    (file.localVersion = 0 → (insertFile folder device file tickv s).1 = tickv) ∧
    (∀ (st st' : DbState) (now : Int), step st (.ins folder device file now) = some st' →
      st'.size = st.size ∧
      st'.store = (insertFile folder device file (tickStep st.clock now) st.store).2 ∧
      (file.localVersion = 0 → st.clock < st'.clock ∧ st'.clock = tickStep st.clock now)) := by
  refine ⟨?_, ?_, ?_, ?_, ?_⟩
  · intro k hk
    rw [insertFile_eq]
    exact put_ne _ _ _ _ hk
  · rw [insertFile_eq]
    exact put_eq _ _ _
  · intro h
    rw [insertFile_eq]
    dsimp only
    rw [if_neg h]
  · intro h
    rw [insertFile_eq]
    dsimp only
    rw [if_pos h]
  · intro st st' now hstep
    unfold step at hstep
    dsimp only at hstep
    cases hstep
    refine ⟨rfl, rfl, fun h0 => ?_⟩
    dsimp only
    rw [if_pos h0]
    refine ⟨?_, rfl⟩
    unfold tickStep
    split <;> omega

/-- A concrete file with zero localVersion. -/
def c8file : FileInfo :=
  { name := [1], version := [(1, 1)], localVersion := 0, modified := 0,
    deleted := false, invalid := false, directory := false, fsize := 7, blocks := [] }

/-- Witness for C8: inserting a zero-localVersion file with tick 5 returns 5,
stores the record with localVersion 5, and leaves the global key absent. -/
theorem C8_witness :
    (insertFile 0 1 c8file 5 initState.store).1 = 5 ∧
    (insertFile 0 1 c8file 5 initState.store).2 (Key.device 0 1 [1]) =
      .found (.fi { c8file with localVersion := 5 }) ∧
    (insertFile 0 1 c8file 5 initState.store).2 (Key.global 0 [1]) = .notFound := by
  have h := C8_insertFile_frame 0 1 c8file 5 initState.store
  refine ⟨h.2.2.2.1 rfl, ?_, ?_⟩
  · have hb := h.2.1
    rw [h.2.2.2.1 rfl] at hb
    exact hb
  · exact h.1 (Key.global 0 [1]) (by simp)

/-- Claim C6: on a present version list, `removeFromGlobal` persists exactly
the old list with the device's first entry dropped, touches no other key,
and deletes the global key instead of ever writing an empty list. -/
theorem C6_remove_writes_exact_list (folder device : Nat) (name : List Nat) (s : Store)
    (sz : SizeTracker) (oldV : List FileVersion) (s' : Store) (sz' : SizeTracker)
    (h1 : s (.global folder name) = .found (.vl oldV)) (h2 : oldV ≠ [])
    (h3 : removeFromGlobal folder device name s sz = some (s', sz')) :
    (removeFirstDev device oldV = [] → s' (.global folder name) = .notFound) ∧
    (removeFirstDev device oldV ≠ [] →
      s' (.global folder name) = .found (.vl (removeFirstDev device oldV))) ∧
    (∀ k, k ≠ Key.global folder name → s' k = s k) ∧
    (∀ l, s' (.global folder name) = .found (.vl l) → l ≠ []) := by
  obtain ⟨sz2, hf, hr⟩ := removeFromGlobal_found folder device name s sz oldV (s', sz') h1 h3
  have hs' : s' = if removeFirstDev device oldV = [] then del s (.global folder name)
      else put s (.global folder name) (.vl (removeFirstDev device oldV)) :=
    congrArg Prod.fst hr
  by_cases hnv : removeFirstDev device oldV = []
  · rw [hs', if_pos hnv]
    refine ⟨fun _ => del_eq _ _, fun hc => absurd hnv hc, fun k hk => del_ne _ _ _ hk, ?_⟩
    intro l hl
    rw [del_eq] at hl
    cases hl
  · rw [hs', if_neg hnv]
    refine ⟨fun hc => absurd hc hnv, fun _ => put_eq _ _ _, fun k hk => put_ne _ _ _ _ hk, ?_⟩
    intro l hl
    rw [put_eq] at hl
    cases hl
    exact hnv

/-- A one-entry version list with its backing device record, for the C6
witness. -/
def c6v : VVec := [(1, 1)]

/-- The device record behind `c6store`. -/
def c6file : FileInfo :=
  { name := [2], version := c6v, localVersion := 1, modified := 0,
    deleted := false, invalid := false, directory := false, fsize := 9, blocks := [] }

/-- Store holding one file known only to device 1. -/
def c6store : Store :=
  put (put (fun _ => .notFound) (.device 0 1 [2]) (.fi c6file)) (.global 0 [2]) (.vl [⟨1, c6v⟩])

/-- Witness for C6: removing the only device of a one-entry list deletes the
global key rather than persisting an empty list. -/
theorem C6_witness :
    ∃ r, removeFromGlobal 0 1 [2] c6store SizeTracker.zero = some r ∧
      r.1 (Key.global 0 [2]) = .notFound := by
  refine ⟨(removeFromGlobal 0 1 [2] c6store SizeTracker.zero).getD (c6store, SizeTracker.zero),
    rfl, ?_⟩
  exact (C6_remove_writes_exact_list 0 1 [2] c6store SizeTracker.zero [⟨1, c6v⟩] _ _
    rfl (by decide) rfl).1 rfl

/-- Claim C2: if the stored version list already holds the device's entry
with exactly the incoming version, `updateGlobal` answers `false` and leaves
the store and tracker untouched; consequently a second identical update is a
no-op returning `false`.  (Well-formedness of the stored list — at most one
entry per device, claim C7's reachable invariant — identifies "an entry for
that device" with the entry the scan meets first.) -/
theorem C2_equal_version_update_noop :
    (∀ (folder device : Nat) (file : FileInfo) (s : Store) (sz : SizeTracker)
       (l : List FileVersion),
       s (.global folder file.name) = .found (.vl l) → DevNodup l →
       (∃ e ∈ l, e.device = device ∧ vecEq e.version file.version = true) →
       updateGlobal folder device file s sz = some (false, s, sz)) ∧
    (∀ (folder device : Nat) (file : FileInfo) (s : Store) (sz : SizeTracker)
       (r : Bool × Store × SizeTracker),
       (∀ l, s (.global folder file.name) = .found (.vl l) → DevNodup l) →
       updateGlobal folder device file s sz = some r →
       updateGlobal folder device file r.2.1 r.2.2 = some (false, r.2.1, r.2.2)) := by
  have key : ∀ (folder device : Nat) (file : FileInfo) (s : Store) (sz : SizeTracker)
      (l : List FileVersion), s (.global folder file.name) = .found (.vl l) →
      scanRemove device file.version l = none →
      updateGlobal folder device file s sz = some (false, s, sz) := by
    intro folder device file s sz l hg hn
    unfold updateGlobal
    rw [hg]
    dsimp only
    unfold updateGlobalWith
    rw [hn]
  refine ⟨?_, ?_⟩
  · intro folder device file s sz l hg hnod hex
    obtain ⟨e, hel, hed, hev⟩ := hex
    exact key folder device file s sz l hg
      (scanRemove_none_of_mem device file.version l hnod e hel hed hev)
  · intro folder device file s sz r hwf hu
    have trueCase : ∀ (oldV : List FileVersion), DevNodup oldV →
        ∀ removed newV sz',
        scanRemove device file.version oldV = some removed →
        insertLoop s folder device file removed = some newV →
        updateGlobal folder device file (put s (.global folder file.name) (.vl newV)) sz'
          = some (false, put s (.global folder file.name) (.vl newV), sz') := by
      intro oldV hnod removed newV sz' hs hi
      have hnod2 : DevNodup newV :=
        updateGlobal_newV_nodup folder device file s oldV removed newV hnod hs hi
      obtain ⟨pre, post, hp1, hp2, _, _⟩ := insertLoop_split s folder device file removed newV hi
      have hmem : (⟨device, file.version⟩ : FileVersion) ∈ newV := by
        rw [hp2]
        exact List.mem_append.mpr (Or.inr (List.mem_cons_self _ _))
      exact key folder device file _ sz' newV (put_eq _ _ _)
        (scanRemove_none_of_mem device file.version newV hnod2 _ hmem rfl (vecEq_refl _))
    unfold updateGlobal at hu
    cases hg : s (.global folder file.name) with
    | ioError => rw [hg] at hu; cases hu
    | notFound =>
      rw [hg] at hu
      rcases updateGlobalWith_cases folder device file s sz [] r hu with
        ⟨hsn, hr⟩ | ⟨removed, newV, sz', hs, hi, hf, hr⟩
      · unfold scanRemove at hsn
        cases hsn
      · subst hr
        exact trueCase [] List.Pairwise.nil removed newV sz' hs hi
    | found v =>
      cases v with
      | fi _ => rw [hg] at hu; cases hu
      | vl l =>
        rw [hg] at hu
        rcases updateGlobalWith_cases folder device file s sz l r hu with
          ⟨hsn, hr⟩ | ⟨removed, newV, sz', hs, hi, hf, hr⟩
        · subst hr
          exact key folder device file s sz l hg hsn
        · subst hr
          exact trueCase l (hwf l hg) removed newV sz' hs hi

/-- The version vector shared by the C2 witness's stored entry and update. -/
def c2v : VVec := [(1, 2)]

/-- The file of the C2 witness. -/
def c2file : FileInfo :=
  { name := [3], version := c2v, localVersion := 1, modified := 0,
    deleted := false, invalid := false, directory := false, fsize := 3, blocks := [] }

/-- A store whose version list for the C2 witness's file already carries the
device's exact version. -/
def c2store : Store := put (fun _ => .notFound) (.global 0 [3]) (.vl [⟨1, c2v⟩])

/-- Witness for C2: the exact-version update returns `false` with nothing
changed, and a fresh update followed by its own repetition returns `false`
the second time. -/
theorem C2_witness :
    updateGlobal 0 1 c2file c2store SizeTracker.zero = some (false, c2store, SizeTracker.zero) ∧
    (∃ r, updateGlobal 0 1 c2file (fun _ => .notFound) SizeTracker.zero = some r ∧
      updateGlobal 0 1 c2file r.2.1 r.2.2 = some (false, r.2.1, r.2.2)) := by
  constructor
  · exact C2_equal_version_update_noop.1 0 1 c2file c2store SizeTracker.zero [⟨1, c2v⟩]
      rfl (by decide) ⟨⟨1, c2v⟩, List.mem_cons_self _ _, rfl, by decide⟩
  · refine ⟨(updateGlobal 0 1 c2file (fun _ => .notFound) SizeTracker.zero).getD
      (false, (fun _ => .notFound), SizeTracker.zero), rfl, ?_⟩
    exact C2_equal_version_update_noop.2 0 1 c2file (fun _ => .notFound) SizeTracker.zero _
      (fun l hl => nomatch hl) rfl

/-- Claim C3, amended: a changed `updateGlobal` stores the list obtained from
the scan result (the old list with the device's previous, non-equal entry
dropped) by inserting the new `(device, version)` entry immediately before
the first entry whose version compares Equal or Lesser, or before the first
concurrent entry over which the file wins the conflict, appending at the
tail when no position qualifies.  The original claim's further consequence —
that stored lists thereby stay sorted descending by version — does not hold;
see `C3_counterexample`. -/
theorem C3_insert_position (folder device : Nat) (file : FileInfo) (s : Store)
    (sz : SizeTracker) (s' : Store) (sz' : SizeTracker) (oldV : List FileVersion)
    (hg : s (.global folder file.name) = .found (.vl oldV))
    (h : updateGlobal folder device file s sz = some (true, s', sz')) :
    ∃ removed pre post,
      scanRemove device file.version oldV = some removed ∧
      removed = pre ++ post ∧
      s' (.global folder file.name) = .found (.vl (pre ++ ⟨device, file.version⟩ :: post)) ∧
      (∀ e ∈ pre, insertsBefore s folder file e = some false) ∧
      (post = [] ∨ ∃ e rest, post = e :: rest ∧ insertsBefore s folder file e = some true) := by
  unfold updateGlobal at h
  rw [hg] at h
  dsimp only at h
  rcases updateGlobalWith_cases folder device file s sz oldV _ h with
    ⟨_, hr⟩ | ⟨removed, newV, sz2, hs, hi, hf, hr⟩
  · exact Bool.noConfusion (congrArg Prod.fst hr)
  · obtain ⟨pre, post, h1, h2, h3, h4⟩ := insertLoop_split s folder device file removed newV hi
    have hs' : s' = put s (.global folder file.name) (.vl newV) :=
      congrArg (fun x => x.2.1) hr
    refine ⟨removed, pre, post, hs, h1, ?_, h3, h4⟩
    rw [hs', put_eq, h2]

/-- Version of the single stored entry in the C3 witness. -/
def c3wv : VVec := [(2, 1)]

/-- The stored file of the C3 witness, held by device 2. -/
def c3wOld : FileInfo :=
  { name := [5], version := c3wv, localVersion := 1, modified := 0,
    deleted := false, invalid := false, directory := false, fsize := 4, blocks := [] }

/-- The strictly newer file device 1 pushes in the C3 witness. -/
def c3wNew : FileInfo := { c3wOld with version := [(1, 1), (2, 1)] }

/-- Store of the C3 witness: device 2's record and the one-entry list. -/
def c3wstore : Store :=
  put (put (fun _ => .notFound) (.device 0 2 [5]) (.fi c3wOld)) (.global 0 [5]) (.vl [⟨2, c3wv⟩])

/-- Witness for C3: pushing a strictly newer version inserts in front of the
lesser entry. -/
theorem C3_witness :
    ∃ r, updateGlobal 0 1 c3wNew c3wstore SizeTracker.zero = some r ∧ r.1 = true ∧
      (∃ removed pre post,
        scanRemove 1 c3wNew.version [⟨2, c3wv⟩] = some removed ∧
        removed = pre ++ post ∧
        r.2.1 (Key.global 0 [5]) = .found (.vl (pre ++ ⟨1, c3wNew.version⟩ :: post)) ∧
        (∀ e ∈ pre, insertsBefore c3wstore 0 c3wNew e = some false) ∧
        (post = [] ∨ ∃ e rest, post = e :: rest ∧
          insertsBefore c3wstore 0 c3wNew e = some true)) := by
  refine ⟨(updateGlobal 0 1 c3wNew c3wstore SizeTracker.zero).getD
    (true, c3wstore, SizeTracker.zero), rfl, by decide, ?_⟩
  exact C3_insert_position 0 1 c3wNew c3wstore SizeTracker.zero _ _ [⟨2, c3wv⟩] rfl rfl

/-- Version list entries of the C3 counterexample: deleted winner, then two
concurrent live files. -/
def c3vb : VVec := [(1, 1), (2, 5)]

/-- Device 1's version in the C3 counterexample. -/
def c3va : VVec := [(1, 2)]

/-- Device 3's version in the C3 counterexample, strictly below `c3vb`. -/
def c3vc : VVec := [(2, 4)]

/-- Device 2's deleted file of the C3 counterexample. -/
def c3fB : FileInfo :=
  { name := [0], version := c3vb, localVersion := 1, modified := 0,
    deleted := true, invalid := false, directory := false, fsize := 10, blocks := [] }

/-- Device 1's live file; it beats the deleted `c3fB` in a conflict. -/
def c3fA : FileInfo := { c3fB with version := c3va, deleted := false }

/-- Device 3's live file; it beats `c3fA` on modification time while its
version is strictly below `c3vb`. -/
def c3fC : FileInfo := { c3fB with version := c3vc, deleted := false, modified := 100 }

/-- The call sequence of the C3 counterexample. -/
def c3ops : List Op :=
  [.ins 0 2 c3fB 0, .upd 0 2 c3fB, .ins 0 1 c3fA 0, .upd 0 1 c3fA,
   .ins 0 3 c3fC 0, .upd 0 3 c3fC]

/-- Counterexample to claim C3's sortedness consequence: a version list
reachable from the empty store through `insertFile`/`updateGlobal` calls
whose head's version is strictly Lesser than a later entry's version, so the
stored list is not sorted descending by version. -/
theorem C3_counterexample :
    ∃ st, run initState c3ops = some st ∧
      st.store (Key.global 0 [0]) = .found (.vl [⟨3, c3vc⟩, ⟨1, c3va⟩, ⟨2, c3vb⟩]) ∧
      vcompare c3vc c3vb = .lt := by
  refine ⟨(run initState c3ops).getD initState, rfl, by decide, by decide⟩

/-- Claim C7: every version list reachable from the empty store through any
sequence of insert, update and removal calls contains at most one entry per
device. -/
theorem C7_reachable_lists_dev_nodup (ops : List Op) (st : DbState)
    (h : run initState ops = some st) (folder : Nat) (name : List Nat)
    (l : List FileVersion) (hl : st.store (.global folder name) = .found (.vl l)) :
    DevNodup l :=
  runWF ops initState st (fun _ _ _ hl0 => nomatch hl0) h folder name l hl

/-- Device 1's version in the C7 witness. -/
def c7v1 : VVec := [(1, 1)]

/-- Device 2's newer version in the C7 witness. -/
def c7v2 : VVec := [(1, 1), (2, 1)]

/-- Device 1's file of the C7 witness. -/
def c7f1 : FileInfo :=
  { name := [4], version := c7v1, localVersion := 1, modified := 0,
    deleted := false, invalid := false, directory := false, fsize := 8, blocks := [] }

/-- Device 2's file of the C7 witness. -/
def c7f2 : FileInfo := { c7f1 with version := c7v2 }

/-- The call sequence of the C7 witness. -/
def c7ops : List Op := [.ins 0 1 c7f1 0, .upd 0 1 c7f1, .ins 0 2 c7f2 0, .upd 0 2 c7f2]

/-- Witness for C7: a two-device run reaches a two-entry list, which the
theorem certifies free of duplicate devices. -/
theorem C7_witness :
    ∃ st, run initState c7ops = some st ∧
      st.store (Key.global 0 [4]) = .found (.vl [⟨2, c7v2⟩, ⟨1, c7v1⟩]) ∧
      DevNodup [⟨2, c7v2⟩, ⟨1, c7v1⟩] := by
  refine ⟨(run initState c7ops).getD initState, rfl, by decide, ?_⟩
  exact C7_reachable_lists_dev_nodup c7ops _ rfl 0 [4] _ (by decide)

/-- The insync value claim C1's invariant demands of a single file name for
device `d` (spec invariant 5, written from the claim's words for comparison
with the tracked counters): the head file's counters when `d`'s version-list
entry equals the head version, zero otherwise. -/
def specInsyncForName (s : Store) (folder : Nat) (name : List Nat) (d : Nat) : Counters :=
  match s (.global folder name) with
  | .found (.vl (e0 :: rest)) =>
    match (e0 :: rest).find? (fun e => e.device = d) with
    | some e =>
      if vecEq e.version e0.version then
        match getFileOpt s folder e0.device name with
        | some hf => Counters.addFile ⟨0, 0, 0⟩ hf
        | none => ⟨0, 0, 0⟩
      else ⟨0, 0, 0⟩
    | none => ⟨0, 0, 0⟩
  | _ => ⟨0, 0, 0⟩

/-- Head version of the single file in the C1 failing run. -/
def c1v : VVec := [(1, 1)]

/-- The version device 1 later moves to, concurrent with `c1v`. -/
def c1vp : VVec := [(3, 1)]

/-- Device 1's first file in the C1 failing run. -/
def c1f1 : FileInfo :=
  { name := [0], version := c1v, localVersion := 1, modified := 0,
    deleted := false, invalid := false, directory := false, fsize := 100, blocks := [] }

/-- Device 2's file, same version and size. -/
def c1f2 : FileInfo := c1f1

/-- Device 1's later deleted file with the concurrent version; it loses the
conflict against device 2's live file, so the head stays at `c1v`. -/
def c1f3 : FileInfo := { c1f1 with version := c1vp, deleted := true }

/-- The failing six-call sequence of claim C1: two devices join the head
cohort, then device 1 moves off the head with a concurrent losing version. -/
def c1ops : List Op :=
  [.ins 0 1 c1f1 0, .upd 0 1 c1f1, .ins 0 2 c1f2 0, .upd 0 2 c1f2,
   .ins 0 1 c1f3 0, .upd 0 1 c1f3]

/-- Claim C1 evaluated at its failing input (code bug): after `c1ops`
— every update preceded by the matching `insertFile`, starting from the
empty folder, with `[0]` the only name any call touches — device 1's entry
`c1vp` differs from the head version `c1v`, so invariant 5 requires
`insync[1] = 0`; the tracker still carries `{1 file, 100 bytes}` because the
head-unchanged branch of `updateGlobalSizeFixup` never debits a device that
leaves the head cohort. -/
theorem C1_size_fixup_drift :
    ∃ st, run initState c1ops = some st ∧
      st.store (Key.global 0 [0]) = .found (.vl [⟨2, c1v⟩, ⟨1, c1vp⟩]) ∧
      vecEq c1vp c1v = false ∧
      st.size.insync 1 = ⟨1, 0, 100⟩ ∧
      specInsyncForName st.store 0 [0] 1 = ⟨0, 0, 0⟩ ∧
      st.size.insync 1 ≠ specInsyncForName st.store 0 [0] 1 := by
  refine ⟨(run initState c1ops).getD initState, rfl, by decide, by decide, by decide,
    by decide, by decide⟩

/-- The 32-byte hash of the C4 failing input. -/
def c4hash : List Nat := List.replicate 32 7

/-- A live single-block file for the C4 failing input. -/
def c4file : FileInfo :=
  { name := [120], version := [], localVersion := 1, modified := 0,
    deleted := false, invalid := false, directory := false, fsize := 1,
    blocks := [{ hash := c4hash, size := 1, offset := 0 }] }

/-- Claim C4 evaluated at its failing input (code bug): `BlockMap.Add` writes
the 33-byte key `[KeyTypeBlock ++ hash]`, while `BlockFinder.Iterate` scans
the 37-byte-prefix region `[KeyTypeBlock ++ folderID ++ hash]`; no stored key
matches, so even an always-satisfied callback is never invoked and the
iteration answers `false` where the claim requires `true`. -/
theorem C4_add_then_iterate_finds_nothing :
    blockMapAdd 0 (fun _ => 0) [c4file] [] =
      [(KeyTypeBlock :: c4hash, marshalLocs [⟨0, 0, 0⟩])] ∧
    blockFinderIterate (fun _ => 0) (blockMapAdd 0 (fun _ => 0) [c4file] []) [[102]] c4hash
      (fun _ _ _ => true) = some false := by
  constructor
  · decide
  · decide

/-- The old block hash of the C5 failing input. -/
def c5h1 : List Nat := List.replicate 32 11

/-- The new block hash of the C5 failing input. -/
def c5h2 : List Nat := List.replicate 32 13

/-- The file as first added, with its block hashing to `c5h1`. -/
def c5file : FileInfo :=
  { name := [121], version := [], localVersion := 1, modified := 0,
    deleted := false, invalid := false, directory := false, fsize := 1,
    blocks := [{ hash := c5h1, size := 1, offset := 0 }] }

/-- The same file after its block's content changed to hash `c5h2`. -/
def c5file2 : FileInfo := { c5file with blocks := [{ hash := c5h2, size := 1, offset := 0 }] }

/-- The store after `Add` of the old file followed by `Update` of the new
one. -/
def c5db : BStore :=
  blockMapUpdate 0 (fun _ => 0) [c5file2] (blockMapAdd 0 (fun _ => 0) [c5file] [])

/-- Claim C5 evaluated at its failing input (code bug): after the block's
hash changes from `c5h1` to `c5h2`, `BlockMap.Update` leaves the stale entry
under the old hash untouched and, for the current hash, writes back the list
with the file's entry removed but never inserts the new location — the
current block ends up with an empty location list instead of exactly one
entry. -/
theorem C5_update_leaves_stale_entry :
    bget c5db (KeyTypeBlock :: c5h1) = some (marshalLocs [⟨0, 0, 0⟩]) ∧
    bget c5db (KeyTypeBlock :: c5h2) = some (marshalLocs []) := by
  constructor
  · decide
  · decide

end Syncthing
